import Mathlib

/-!
Verification development for the fhda-pooled-ldap package.

This file gives a shallow embedding, in Lean 4, of the behaviourally relevant
parts of `src/EventLogger.js` and `src/PooledLdapConnection.js`, and proves (or
refutes) the documented properties of the package against that embedding.

Conventions used throughout:
 - Promises are modelled by their settled outcome `Except JsError α`
   (`.ok` = fulfilled, `.error` = rejected).  A promise that can also stay
   pending forever is modelled by `Option (Except JsError α)` (`none` = never
   settles).
 - JavaScript `undefined` appears as an explicit constructor where the code
   tests for it (`JsArg.undef`, `AttrValue.undef`).
 - Side effects that matter for the properties (acquiring, releasing and
   disposing pooled connections, attaching stream handlers, settling a promise,
   stream emissions) are recorded in explicit ordered traces.
 - Each definition is translated from the JavaScript source; comments cite the
   source function it embeds.  The single exception is
   `isCredentialFailedErrorSpec`, which deliberately follows the documented
   (specified) classifier semantics so that it can be compared with the code.
-/

namespace FhdaLdap

/-! ### EventLogger (src/EventLogger.js)

`EventLogger` extends Node's `EventEmitter`.  Its observable state is the
internal event buffer plus the ordered list of registered `'log'` listeners
(listeners are identified here by a `Nat` tag; registration order is the list
order).  The constructor saves the original `EventEmitter` emit function as
`this._emit` and installs an overriding `this.emit` that buffers `'log'`
events while no listener is registered. -/

/-- Shape of one emitted log event: `{message, metadata}`
(`EventLogger.log(message, metadata)`). -/
structure LogEvent where
  message : String
  metadata : Option String
deriving DecidableEq, Repr

namespace EventLogger

/-- Observable state of the `EventLogger` singleton: the internal
`this.eventBuffer` array (oldest first) and the registered `'log'` listeners
in registration order. -/
structure State where
  eventBuffer : List LogEvent
  listeners : List Nat
deriving DecidableEq, Repr

/-- Freshly constructed logger: empty buffer, no listeners
(`this.eventBuffer = []`, EventLogger.js line 58). -/
def init : State := ⟨[], []⟩

/-- The overriding `this.emit` installed in the constructor (EventLogger.js
lines 78-95), specialised to `eventName === 'log'`: if `listenerCount('log') > 0`
the event is delivered synchronously to all listeners via the original emit;
otherwise the buffer is capped (`if (this.eventBuffer.length > 99)` shift the
oldest) and the event is pushed onto the end of the buffer.  The returned list
records the (listener, event) deliveries that were made. -/
def emit (s : State) (e : LogEvent) : State × List (Nat × LogEvent) :=
  if s.listeners.length > 0 then
    (s, s.listeners.map (fun l => (l, e)))
  else
    (⟨(if s.eventBuffer.length > 99 then s.eventBuffer.drop 1 else s.eventBuffer) ++ [e],
      s.listeners⟩, [])

/-- The `log(message, metadata)` helper (EventLogger.js lines 107-109).  It
invokes `this._emit('log', message, metadata)`, i.e. the ORIGINAL
`EventEmitter` emit saved before the override was installed: events are
delivered synchronously to the current listeners, and nothing is ever written
to `this.eventBuffer` (the buffering override is bypassed). -/
def log (s : State) (e : LogEvent) : State × List (Nat × LogEvent) :=
  (s, s.listeners.map (fun l => (l, e)))

/-- Registering a `'log'` listener (`events.on('log', fn)`).  `EventEmitter`
fires the `'newListener'` event before the listener is appended; the handler
installed in the constructor (EventLogger.js lines 61-72) then drains the
buffer oldest to newest, dispatching every buffered event directly to the new
listener (the JS loop stops at a falsy element, and buffered entries are
argument arrays, which are always truthy, so the whole buffer is drained). -/
def onLog (s : State) (l : Nat) : State × List (Nat × LogEvent) :=
  if s.eventBuffer.length > 0 then
    (⟨[], s.listeners ++ [l]⟩, s.eventBuffer.map (fun e => (l, e)))
  else
    (⟨s.eventBuffer, s.listeners ++ [l]⟩, [])

/-- Removing a previously registered `'log'` listener
(`events.removeListener('log', fn)`, inherited from `EventEmitter`): one
matching entry is removed; buffer untouched. -/
def removeListener (s : State) (l : Nat) : State :=
  ⟨s.eventBuffer, s.listeners.erase l⟩

/-- Emit a whole sequence of `'log'` events through the overriding `emit`,
keeping only the resulting state. -/
def emitAll (s : State) (es : List LogEvent) : State :=
  es.foldl (fun st e => (emit st e).1) s

end EventLogger

/-- Concrete sequence of 150 distinct log events, used to instantiate the
buffered-replay scenario. -/
def esW : List LogEvent := (List.range 150).map (fun n => ⟨toString n, none⟩)

/-! ### Credential failure classification (PooledLdapConnection.js 300-317) -/

/-- Shape of an ldapjs error object as far as `isCredentialFailedError`
inspects it: the numeric `code` property and the `lde_message` string, either
of which may be absent (`none` = `undefined`). -/
structure LdapError where
  code : Option Int
  lde_message : Option String
deriving DecidableEq, Repr

/-- First index of `pat` inside `s`, on character lists: `some i` if `pat`
occurs first at position `i`, `none` if it does not occur.  The empty pattern
occurs at index 0, matching JavaScript `String.prototype.indexOf`. -/
def indexOfChars (pat : List Char) : List Char → Option Nat
  | [] => if pat.isPrefixOf ([] : List Char) then some 0 else none
  | c :: rest =>
    if pat.isPrefixOf (c :: rest) then some 0
    else (indexOfChars pat rest).map (fun n => n + 1)

/-- JavaScript `s.indexOf(pat)`: the first occurrence index, or `-1` when
`pat` does not occur in `s`. -/
def jsIndexOf (s pat : String) : Int :=
  match indexOfChars pat.data s.data with
  | some n => (n : Int)
  | none => -1

/-- `isCredentialFailedError(error)` (PooledLdapConnection.js lines 300-317),
verbatim control flow:
`if (error.code === 49) return true;`
`else if (error.lde_message) {` (JS truthiness: defined and non-empty)
`  if (error.lde_message === 'Invalid Credentials') return true;`
`  else if (error.lde_message.indexOf('DSID-0C0903D9')) return true; }`
(JS truthiness of a number: any value other than 0, so `-1` — "not found" —
is truthy while index 0 is falsy)
`return false;` -/
def isCredentialFailedError (error : LdapError) : Bool :=
  if error.code = some 49 then true
  else
    match error.lde_message with
    | some m =>
      if m ≠ "" then
        if m = "Invalid Credentials" then true
        else if jsIndexOf m "DSID-0C0903D9" ≠ 0 then true
        else false
      else false
    | none => false

/-- Whether `pat` occurs anywhere inside `s`. -/
def containsSubstr (s pat : String) : Bool :=
  (indexOfChars pat.data s.data).isSome

/-- Modelled from the spec, for comparison with the code: true when the
provider reports the canonical invalid-credential status code 49, or the
message is exactly `'Invalid Credentials'` (Sun ONE), or the message contains
the substring `'DSID-0C0903D9'` anywhere (Active Directory); false otherwise. -/
def isCredentialFailedErrorSpec (error : LdapError) : Bool :=
  (error.code = some 49 : Bool) ||
    (match error.lde_message with
     | some m => (m = "Invalid Credentials" : Bool) || containsSubstr m "DSID-0C0903D9"
     | none => false)

/-! ### Credential encoding and change records
(PooledLdapConnection.js 216-220, 231-236, 271-281, 326-337, 353-363) -/

/-- Values that can appear as an attribute value in a change record: a plain
string, a byte buffer (`new Buffer(..., 'utf16le')`), a list of strings, the
result of a caller-supplied encoding function, or JavaScript `undefined`. -/
inductive AttrValue where
  | str (s : String)
  | bytes (bs : List Nat)
  | strs (vs : List String)
  | undef
deriving Repr

/-- The `encodingType` parameter of `encodeCredential`: `null`, a named
scheme (a string such as `'msad'`), or a caller-supplied function. -/
inductive EncodingType where
  | null
  | named (name : String)
  | func (f : String → AttrValue)

/-- UTF-16LE byte sequence of one character (code units little-endian;
characters above the BMP become a surrogate pair). -/
def utf16leCodeUnits (c : Char) : List Nat :=
  let v := c.toNat
  if v < 0x10000 then [v % 256, v / 256]
  else
    let w := v - 0x10000
    let hi := 0xD800 + w / 0x400
    let lo := 0xDC00 + w % 0x400
    [hi % 256, hi / 256, lo % 256, lo / 256]

/-- UTF-16LE byte sequence of a string (`new Buffer(s, 'utf16le')`). -/
def utf16leBytes (s : String) : List Nat :=
  s.data.foldr (fun c acc => utf16leCodeUnits c ++ acc) []

/-- `encodeCredential(credential, encodingType=null)` (PooledLdapConnection.js
lines 271-281): `if (!(encodingType)) return credential` (falsy covers `null`
and the empty string); `else if (encodingType === 'msad')` return the quoted
credential UTF-16LE encoded; `else if (typeof encodingType === 'function')`
return `encodingType(credential)`; otherwise the function falls through and
returns `undefined`. -/
def encodeCredential (credential : String) : EncodingType → AttrValue
  | EncodingType.null => AttrValue.str credential
  | EncodingType.named name =>
    if name = "" then AttrValue.str credential
    else if name = "msad" then AttrValue.bytes (utf16leBytes ("\"" ++ credential ++ "\""))
    else AttrValue.undef
  | EncodingType.func f => f credential

/-- An `Ldap.Change` object: `{operation, modification}` where `modification`
maps attribute names to values (PooledLdapConnection.js lines 231-236). -/
structure Change where
  operation : String
  modification : List (String × AttrValue)
deriving Repr

/-- `createLdapChange(operation, attributes)` (PooledLdapConnection.js lines
231-236): wraps the pair into an `Ldap.Change`. -/
def createLdapChange (operation : String) (attributes : List (String × AttrValue)) : Change :=
  ⟨operation, attributes⟩

/-- The single `modifyAsync` call a `modify(dn, changes)` invocation submits
(PooledLdapConnection.js lines 326-337; the `undefined` `controls` argument is
dropped by the dispatcher, see `performAsyncLdapOperationCall`). -/
structure ModifyCall where
  dn : String
  changes : List Change
deriving Repr

/-- `modify(dn, changes)` as the modify call it submits. -/
def modify (dn : String) (changes : List Change) : ModifyCall :=
  ⟨dn, changes⟩

/-- `modifySimple(dn, ...operations)` (PooledLdapConnection.js lines 353-363):
each `[operation, attribute, value]` triple becomes one
`createLdapChange(operation, {[attribute]: value})`, and all resulting change
records are submitted through a single `modify(dn, changes)` call. -/
def modifySimple (dn : String) (operations : List (String × String × AttrValue)) : ModifyCall :=
  modify dn (operations.map (fun operation =>
    createLdapChange operation.1 [(operation.2.1, operation.2.2)]))

/-- `changeCredential(dn, credential, attributeName='userPassword',
encodingType=null)` (PooledLdapConnection.js lines 216-220): one
`modifySimple` call with the single triple
`['replace', attributeName, encodeCredential(credential, encodingType)]`. -/
def changeCredential (dn credential attributeName : String) (encodingType : EncodingType) :
    ModifyCall :=
  modifySimple dn [("replace", attributeName, encodeCredential credential encodingType)]

/-! ### Error universe and promise outcomes -/

/-- Pooled LDAP clients are identified by a numeric tag. -/
abbrev Client := Nat

/-- The errors that flow through the dispatch layer: an ldapjs error carrying
`code`/`lde_message`, the package's `Errors.CredentialValidationFailed`, the
`TypeError` raised when the cleanup handler dereferences an `undefined`
`clientInstance`, a failure thrown by a log subscriber, or an arbitrary other
error. -/
inductive JsError where
  | ldapError (e : LdapError)
  | credentialValidationFailed
  | typeError
  | logFailure (n : Nat)
  | generic (n : Nat)
deriving DecidableEq, Repr

/-- How the developer callback handed to `withConnection` can exit: it can
throw synchronously inside the `.then` handler, or return a promise that
settles (`.ok` = normal fulfilment, `.error` = rejection). -/
inductive CallbackBehavior (α : Type) where
  | throws (e : JsError)
  | returns (r : Except JsError α)

/-- Settled outcome of the `.then(client => callback(client))` stage: a
synchronous throw and a returned rejection both reject the chained promise. -/
def callbackSettle {α : Type} : CallbackBehavior α → Except JsError α
  | CallbackBehavior.throws e => Except.error e
  | CallbackBehavior.returns r => r

/-! ### withConnection (PooledLdapConnection.js 450-471) -/

/-- Pool-level side effects of one `withConnection` run, in order of
occurrence: acquiring a client from the pool, invoking the developer callback
on it, releasing it back to the pool, or disposing it. -/
inductive PoolEvent where
  | acquire (c : Client)
  | invoke (c : Client)
  | release (c : Client)
  | dispose (c : Client)
deriving DecidableEq, Repr

/-- True on the two cleanup events (`release`/`dispose`). -/
def isCleanupEvent : PoolEvent → Bool
  | PoolEvent.release _ => true
  | PoolEvent.dispose _ => true
  | _ => false

/-- True exactly on `release` events. -/
def isReleasePoolEvent : PoolEvent → Bool
  | PoolEvent.release _ => true
  | _ => false

/-- `withConnection(callback, dispose=false)` (PooledLdapConnection.js lines
450-471): `this.acquire().then(client => { clientInstance = client; return
callback(client); }).finally(() => { if (dispose) clientInstance.dispose();
else { EventLogger.log(...); clientInstance.release(); } })`.

`acq` is the settled outcome of `this.acquire()`; `operation` describes the
developer callback's behaviour on the acquired client.  The bluebird
`.finally` handler always runs exactly once when the upstream promise
settles; when it completes normally the upstream outcome is passed through,
and when it throws, the returned promise rejects with the thrown error.

On acquisition failure the `.then` handler is skipped, so `clientInstance` is
still `undefined` when the `.finally` handler dereferences it: the handler
throws a `TypeError` (replacing the acquisition error) and no pool event
touches any client — there is no acquired connection to clean up. -/
def withConnection {α : Type} (acq : Except JsError Client)
    (operation : Client → CallbackBehavior α) (dispose : Bool) :
    Except JsError α × List PoolEvent :=
  match acq with
  | Except.error _ => (Except.error JsError.typeError, [])
  | Except.ok c =>
    let r := callbackSettle (operation c)
    if dispose then (r, [PoolEvent.acquire c, PoolEvent.invoke c, PoolEvent.dispose c])
    else (r, [PoolEvent.acquire c, PoolEvent.invoke c, PoolEvent.release c])

/-! ### The named-operation dispatcher (PooledLdapConnection.js 481-489) -/

/-- A positional argument of a variable-arity ldapjs call; `undef` is
JavaScript `undefined`. -/
inductive JsArg where
  | undef
  | str (s : String)
  | num (n : Nat)
deriving DecidableEq, Repr

/-- The client call ultimately performed:
`client[functionName].apply(client, filteredArgs)`. -/
structure ClientCall where
  functionName : String
  args : List JsArg
deriving DecidableEq, Repr

/-- `$performAsyncLdapOperation(functionName, ...args)` (PooledLdapConnection.js
lines 481-489), as the client call it performs inside `withConnection`:
`let filteredArgs = args.filter(arg => arg !== undefined);`
`return client[functionName].apply(client, filteredArgs);`. -/
def performAsyncLdapOperationCall (functionName : String) (args : List JsArg) : ClientCall :=
  ⟨functionName, args.filter (fun arg => decide (arg ≠ JsArg.undef))⟩

/-! ### Success-log tap on add/delete/modify
(PooledLdapConnection.js 183-194, 244-254, 326-337) -/

/-- Bluebird `promise.tap(handler)`: the handler is invoked only on
fulfilment and its resolution value is discarded — the original value passes
through — but an error thrown by (or a rejection returned from) the handler
rejects the tapped chain.  The `Bool` component records whether the handler
was invoked. -/
def tap {α : Type} (p : Except JsError α) (handler : α → Except JsError Unit) :
    Except JsError α × Bool :=
  match p with
  | Except.error e => (Except.error e, false)
  | Except.ok v =>
    match handler v with
    | Except.error e => (Except.error e, true)
    | Except.ok _ => (Except.ok v, true)

/-- `add`/`delete`/`modify` wrap the dispatched operation with
`.tap(() => EventLogger.log('...success...', {...}))` (PooledLdapConnection.js
lines 183-194, 244-254, 326-337).  `operationResult` is the settled outcome of
the dispatched directory call; `logOutcome` is the outcome of the
`EventLogger.log` side-effect (it rejects when a registered log subscriber
throws).  The `Bool` component records whether the success log was emitted. -/
def addDeleteModify (operationResult : Except JsError Unit)
    (logOutcome : Except JsError Unit) : Except JsError Unit × Bool :=
  tap operationResult (fun _ => logOutcome)

/-! ### testCredential (PooledLdapConnection.js 421-441) -/

/-- The developer callback `testCredential` hands to `withConnection`
(PooledLdapConnection.js lines 424-439): `client.bindAsync(dn, credential)`,
then on success resolve `true`; on failure, if `isCredentialFailedError(error)`
reject with `Errors.CredentialValidationFailed`, otherwise re-reject the
original error unchanged.  (The `EventLogger.log` calls on both branches are
pure side effects here.) -/
def testCredentialOp (bindResult : Except LdapError Unit) : Except JsError Bool :=
  match bindResult with
  | Except.ok _ => Except.ok true
  | Except.error error =>
    if isCredentialFailedError error then Except.error JsError.credentialValidationFailed
    else Except.error (JsError.ldapError error)

/-- `testCredential(dn, credential)` (PooledLdapConnection.js lines 421-441):
`withConnection` with the bind-probing callback and `dispose = true`.
`bindResult` gives the settled outcome of `bindAsync` on each client. -/
def testCredential (acq : Except JsError Client)
    (bindResult : Client → Except LdapError Unit) :
    Except JsError Bool × List PoolEvent :=
  withConnection acq (fun c => CallbackBehavior.returns (testCredentialOp (bindResult c))) true

/-! ### Streaming search (PooledLdapConnection.js 376-401)

`search` wraps `withConnection` in a `new Promise`.  The callback runs
`client.searchAsync(baseDn, searchOptions)`, and on success attaches, in this
order, `once('error', reject)`, `on('searchEntry', e => results.push(e.object))`
and `once('end', () => resolve(results))`, then returns `undefined` — so the
callback's promise settles as soon as the handlers are attached, and the
`withConnection` cleanup (release) runs at that point, while the stream events
(and the settling of the outer search promise) happen afterwards.  If
`searchAsync` itself rejects, `.catch(reject)` settles the outer promise and
then fulfils, after which the cleanup releases the connection. -/

/-- Events emitted by the ldapjs search stream, in emission order. -/
inductive StreamEvent where
  | entry (e : Nat)
  | errorEv (err : JsError)
  | endEv
deriving DecidableEq, Repr

/-- True on the stream events that settle the search promise
(`error` rejects, `end` resolves). -/
def isTerminalEvent : StreamEvent → Bool
  | StreamEvent.entry _ => false
  | StreamEvent.errorEv _ => true
  | StreamEvent.endEv => true

/-- The `entry.object` values of the matched-entry events of a script, in
emission order. -/
def entriesOf (script : List StreamEvent) : List Nat :=
  script.filterMap (fun ev =>
    match ev with
    | StreamEvent.entry e => some e
    | _ => none)

/-- Observable, ordered events of one `search` run: pool acquisition, handler
attachment, stream emissions, the settling of the outer search promise, and
the release of the connection. -/
inductive SearchTraceEvent where
  | acquire (c : Client)
  | attachHandlers
  | streamEvent (ev : StreamEvent)
  | settle (r : Except JsError (List Nat))
  | release (c : Client)
deriving Repr

/-- True exactly on `release` trace events. -/
def isReleaseEvent : SearchTraceEvent → Bool
  | SearchTraceEvent.release _ => true
  | _ => false

/-- Playing the attached handlers against the stream script
(PooledLdapConnection.js lines 390-396): every `searchEntry` is pushed onto
`results`; the first `error` rejects the outer promise with that error (no
partial results accompany a rejection); the first `end` resolves it with the
entries collected so far.  Later events can still be emitted but the promise
is already settled. -/
def playStream : List StreamEvent → List Nat → List SearchTraceEvent
  | [], _ => []
  | StreamEvent.entry e :: rest, results =>
    SearchTraceEvent.streamEvent (StreamEvent.entry e) :: playStream rest (results ++ [e])
  | StreamEvent.errorEv err :: rest, _ =>
    SearchTraceEvent.streamEvent (StreamEvent.errorEv err) ::
      SearchTraceEvent.settle (Except.error err) :: rest.map SearchTraceEvent.streamEvent
  | StreamEvent.endEv :: rest, results =>
    SearchTraceEvent.streamEvent StreamEvent.endEv ::
      SearchTraceEvent.settle (Except.ok results) :: rest.map SearchTraceEvent.streamEvent

/-- Full ordered trace of one `search(baseDn, filter, attributes, scope)` run
(PooledLdapConnection.js lines 376-401).  `acq` is the outcome of the pool
acquisition inside `withConnection`; `searchCall` the settled outcome of
`client.searchAsync(...)`; `script` the events the stream then emits.

On acquisition failure the `withConnection` promise rejects with the cleanup
`TypeError`, but the executor of the outer `new Promise` never forwards it, so
the search promise never settles and no event touches a client.  When
`searchAsync` rejects, `.catch(reject)` settles the outer promise first and
the `.finally` release runs afterwards.  When it fulfils, handlers are
attached, the callback promise fulfils, the connection is released, and only
then does the stream script play out. -/
def searchTrace (acq : Except JsError Client) (searchCall : Except JsError Unit)
    (script : List StreamEvent) : List SearchTraceEvent :=
  match acq with
  | Except.error _ => []
  | Except.ok c =>
    match searchCall with
    | Except.error e =>
      [SearchTraceEvent.acquire c, SearchTraceEvent.settle (Except.error e),
        SearchTraceEvent.release c]
    | Except.ok _ =>
      [SearchTraceEvent.acquire c, SearchTraceEvent.attachHandlers,
        SearchTraceEvent.release c] ++ playStream script []

/-- The value with which the search promise first settles (a promise settles
at most once), or `none` if the trace never settles it. -/
def settledResult : List SearchTraceEvent → Option (Except JsError (List Nat))
  | [] => none
  | SearchTraceEvent.settle r :: _ => some r
  | SearchTraceEvent.acquire _ :: rest => settledResult rest
  | SearchTraceEvent.attachHandlers :: rest => settledResult rest
  | SearchTraceEvent.streamEvent _ :: rest => settledResult rest
  | SearchTraceEvent.release _ :: rest => settledResult rest

/-- True when no `release` event occurs before the first `settle` event,
i.e. the connection is released only after the search result has settled. -/
def releasedOnlyAfterSettle : List SearchTraceEvent → Bool
  | [] => true
  | SearchTraceEvent.settle _ :: _ => true
  | SearchTraceEvent.release _ :: _ => false
  | SearchTraceEvent.acquire _ :: rest => releasedOnlyAfterSettle rest
  | SearchTraceEvent.attachHandlers :: rest => releasedOnlyAfterSettle rest
  | SearchTraceEvent.streamEvent _ :: rest => releasedOnlyAfterSettle rest

/-! ## Theorems -/

/-- C1: for every operation callback and every dispose flag,
`withConnection(operation, dispose)` acquires a connection, invokes
`operation(connection)`, and on every exit path of the callback — normal
return, rejection, or synchronous failure (all covered by quantifying over
`operation`) — the acquired connection is released (when `dispose` is false)
or disposed (when `dispose` is true), exactly once; when the acquisition
itself fails, no connection was acquired and no release or dispose happens at
all. -/
theorem fhda_C1 {α : Type} (acq : Except JsError Client)
    (operation : Client → CallbackBehavior α) (dispose : Bool) :
    (∀ c, acq = Except.ok c →
      (withConnection acq operation dispose).2 =
        [PoolEvent.acquire c, PoolEvent.invoke c,
          if dispose then PoolEvent.dispose c else PoolEvent.release c] ∧
      ((withConnection acq operation dispose).2.filter isCleanupEvent) =
        [if dispose then PoolEvent.dispose c else PoolEvent.release c] ∧
      (withConnection acq operation dispose).1 = callbackSettle (operation c)) ∧
    (∀ e, acq = Except.error e →
      ((withConnection acq operation dispose).2.filter isCleanupEvent) = []) := by
  constructor
  · intro c hc
    subst hc
    cases dispose <;>
      simp [withConnection, isCleanupEvent, List.filter]
  · intro e he
    subst he
    simp [withConnection, List.filter]

/-- Witness for C1 at a concrete input: acquisition succeeds with client 3,
the callback fulfils normally, `dispose = false`, and the trace is exactly
acquire, invoke, release. -/
theorem fhda_C1_witness :
    ((Except.ok 3 : Except JsError Client) = Except.ok 3) ∧
    (withConnection (Except.ok 3)
        (fun _ => CallbackBehavior.returns (Except.ok (0 : Nat))) false).2 =
      [PoolEvent.acquire 3, PoolEvent.invoke 3,
        if false then PoolEvent.dispose 3 else PoolEvent.release 3] :=
  ⟨rfl,
    ((fhda_C1 (Except.ok 3) (fun _ => CallbackBehavior.returns (Except.ok (0 : Nat)))
        false).1 3 rfl).1⟩

/-- C10: the internal operation dispatcher removes every argument equal to
`undefined` at ANY position — not only trailing ones — before invoking the
named client function: an `undefined` argument in a middle position shifts
all later defined arguments one position to the left, no defined argument is
ever dropped, and the invoked argument list never contains `undefined`. -/
theorem fhda_C10 (functionName : String) (args pre post : List JsArg) :
    performAsyncLdapOperationCall functionName (pre ++ JsArg.undef :: post) =
      performAsyncLdapOperationCall functionName (pre ++ post) ∧
    ((performAsyncLdapOperationCall functionName args).args.all
        (fun arg => decide (arg ≠ JsArg.undef))) = true ∧
    (args.all (fun arg => decide (arg ≠ JsArg.undef)) = true →
      performAsyncLdapOperationCall functionName args = ⟨functionName, args⟩) := by
  refine ⟨?_, ?_, ?_⟩
  · simp [performAsyncLdapOperationCall, List.filter_append]
  · simp only [performAsyncLdapOperationCall, List.all_eq_true]
    intro arg harg
    exact (List.mem_filter.mp harg).2
  · intro h
    simp only [performAsyncLdapOperationCall, ClientCall.mk.injEq, true_and]
    exact List.filter_eq_self.mpr (List.all_eq_true.mp h)

/-- Witness for C10 at a concrete input: an argument list with no `undefined`
entries is passed through unchanged. -/
theorem fhda_C10_witness :
    ([JsArg.str "dn", JsArg.num 1].all (fun arg => decide (arg ≠ JsArg.undef)) = true) ∧
    performAsyncLdapOperationCall "modifyAsync" [JsArg.str "dn", JsArg.num 1] =
      ⟨"modifyAsync", [JsArg.str "dn", JsArg.num 1]⟩ :=
  ⟨rfl,
    (fhda_C10 "modifyAsync" [JsArg.str "dn", JsArg.num 1] [] []).2.2 rfl⟩

/-- C9: `changeCredential(dn, credential, attributeName, encodingType)`
submits exactly one modify call, carrying the single replace change record on
`attributeName` whose value is the encoded credential; and when the encoding
scheme is a caller-supplied function, the raw credential is passed to that
function and its return value is used verbatim, with no additional
transformation. -/
theorem fhda_C9 (dn credential attributeName : String) (encodingType : EncodingType) :
    changeCredential dn credential attributeName encodingType =
      { dn := dn,
        changes := [{ operation := "replace",
                      modification :=
                        [(attributeName, encodeCredential credential encodingType)] }] } ∧
    (∀ f : String → AttrValue,
      encodeCredential credential (EncodingType.func f) = f credential) :=
  ⟨rfl, fun _ => rfl⟩

/-- C6 counterexample: the directory call succeeded (`.ok ()`), the
success-log side-effect failed (a registered log subscriber threw), and the
parent operation REJECTS with the logging failure — bluebird `.tap` does not
swallow handler failures, so the claim that a logging failure never causes
the parent add/delete/modify to fail is false. -/
theorem fhda_C6_counterexample :
    (addDeleteModify (Except.ok ()) (Except.error (JsError.logFailure 0))).1 =
      Except.error (JsError.logFailure 0) := rfl

/-- C6 amended: when the underlying directory call succeeds a structured
success log event is emitted; when the logging side-effect succeeds the
parent operation's outcome is the directory call's outcome; but when the
logging side-effect fails, that failure propagates through `.tap` and rejects
the parent operation — no failure is swallowed.  When the directory call
fails, its error propagates and no success log is emitted. -/
theorem fhda_C6_amended (operationResult logOutcome : Except JsError Unit) :
    (operationResult = Except.ok () →
      (addDeleteModify operationResult logOutcome).2 = true) ∧
    (logOutcome = Except.ok () →
      (addDeleteModify operationResult logOutcome).1 = operationResult) ∧
    (∀ e, operationResult = Except.ok () → logOutcome = Except.error e →
      (addDeleteModify operationResult logOutcome).1 = Except.error e) ∧
    (∀ e, operationResult = Except.error e →
      (addDeleteModify operationResult logOutcome).1 = Except.error e ∧
      (addDeleteModify operationResult logOutcome).2 = false) := by
  refine ⟨?_, ?_, ?_, ?_⟩
  · intro h; subst h
    cases logOutcome <;> rfl
  · intro h; subst h
    cases operationResult <;> rfl
  · intro e h1 h2; subst h1; subst h2; rfl
  · intro e h; subst h; exact ⟨rfl, rfl⟩

/-- Witness for the amended C6 at a concrete input: operation succeeded and
logging succeeded, so the success log was emitted and the parent operation
resolved with the operation's outcome. -/
theorem fhda_C6_witness :
    (addDeleteModify (Except.ok ()) (Except.ok ())).2 = true ∧
    (addDeleteModify (Except.ok ()) (Except.ok ())).1 = Except.ok () :=
  ⟨(fhda_C6_amended (Except.ok ()) (Except.ok ())).1 rfl,
    (fhda_C6_amended (Except.ok ()) (Except.ok ())).2.1 rfl⟩

/-- C7: `testCredential` acquires a connection and attempts a bind; on a bind
failure classified as an invalid credential it rejects with
`CredentialValidationFailed`, on any other bind failure the original error
propagates unchanged, and on success it resolves `true`; in every one of
these outcomes the probing connection is disposed afterward and never
released back to the idle set. -/
theorem fhda_C7 (acq : Except JsError Client)
    (bindResult : Client → Except LdapError Unit) (c : Client)
    (hc : acq = Except.ok c) :
    (bindResult c = Except.ok () →
      (testCredential acq bindResult).1 = Except.ok true) ∧
    (∀ e, bindResult c = Except.error e → isCredentialFailedError e = true →
      (testCredential acq bindResult).1 =
        Except.error JsError.credentialValidationFailed) ∧
    (∀ e, bindResult c = Except.error e → isCredentialFailedError e = false →
      (testCredential acq bindResult).1 = Except.error (JsError.ldapError e)) ∧
    (testCredential acq bindResult).2 =
      [PoolEvent.acquire c, PoolEvent.invoke c, PoolEvent.dispose c] ∧
    ((testCredential acq bindResult).2.filter isReleasePoolEvent) = [] := by
  subst hc
  refine ⟨?_, ?_, ?_, rfl, ?_⟩
  · intro h
    simp [testCredential, withConnection, callbackSettle, testCredentialOp, h]
  · intro e h hclass
    simp [testCredential, withConnection, callbackSettle, testCredentialOp, h, hclass]
  · intro e h hclass
    simp [testCredential, withConnection, callbackSettle, testCredentialOp, h, hclass]
  · simp [testCredential, withConnection, isReleasePoolEvent, List.filter]

/-- Witness for C7 at a concrete input: the bind fails with the canonical
invalid-credential status code 49, the classifier marks it, and
`testCredential` rejects with `CredentialValidationFailed`. -/
theorem fhda_C7_witness :
    ((Except.ok 2 : Except JsError Client) = Except.ok 2) ∧
    ((fun _ : Client => (Except.error ⟨some 49, none⟩ : Except LdapError Unit)) 2 =
      Except.error ⟨some 49, none⟩) ∧
    isCredentialFailedError ⟨some 49, none⟩ = true ∧
    (testCredential (Except.ok 2)
        (fun _ => Except.error ⟨some 49, none⟩)).1 =
      Except.error JsError.credentialValidationFailed :=
  ⟨rfl, rfl, rfl,
    (fhda_C7 (Except.ok 2) (fun _ => Except.error ⟨some 49, none⟩) 2 rfl).2.1
      ⟨some 49, none⟩ rfl rfl⟩

/-- C3 (code/spec divergence, exhibited): the claim says the classifier
returns true exactly when the code is 49, the message is the Sun ONE exact
message, or the message CONTAINS the Active-Directory substring
`'DSID-0C0903D9'`.  The code instead tests the JavaScript truthiness of
`indexOf`, for which `-1` ("not found") is truthy and `0` ("found at position
0") is falsy.  Consequently: (1) a generic error whose message is
`'Connection reset'` — code 80, no DSID substring — is classified as a
credential failure by the code although the claim says false; and (2) a
message that starts with the DSID substring is NOT classified although the
claim says true.  `isCredentialFailedErrorSpec` is the classifier as the
claim describes it. -/
theorem fhda_C3_bug :
    isCredentialFailedError ⟨some 80, some "Connection reset"⟩ = true ∧
    isCredentialFailedErrorSpec ⟨some 80, some "Connection reset"⟩ = false ∧
    containsSubstr "Connection reset" "DSID-0C0903D9" = false ∧
    isCredentialFailedError ⟨none, some "DSID-0C0903D9 (data 52e)"⟩ = false ∧
    isCredentialFailedErrorSpec ⟨none, some "DSID-0C0903D9 (data 52e)"⟩ = true :=
  ⟨rfl, rfl, rfl, rfl, rfl⟩

/-- C8 counterexample: a `'log'` subscriber registers (exiting the buffering
state) and is later removed; an event emitted afterwards IS buffered again —
so a state is reachable after the first subscriber registered in which
emitted log events are buffered, refuting the claim that the buffering state
is permanently exited. -/
theorem fhda_C8_counterexample :
    (EventLogger.emit
        (EventLogger.removeListener (EventLogger.onLog EventLogger.init 0).1 0)
        ⟨"Destroyed LDAP client connection", none⟩).1.eventBuffer =
      [⟨"Destroyed LDAP client connection", none⟩] := rfl

/-- C8 amended: the first `'log'` subscriber does trigger the drain and exit
from buffering (the buffer is emptied and the subscriber appended), and while
at least one subscriber is registered emitted events pass through without
touching the buffer; but the exit is NOT permanent: the emit override tests
the live listener count, so once all subscribers have been removed,
subsequently emitted log events are buffered again. -/
theorem fhda_C8_amended (buf : List LogEvent) (l : Nat) (e : LogEvent) :
    (EventLogger.onLog ⟨buf, []⟩ l).1 = ⟨[], [l]⟩ ∧
    (EventLogger.emit ⟨[], [l]⟩ e).2 = [(l, e)] ∧
    (EventLogger.emit ⟨[], [l]⟩ e).1.eventBuffer = [] ∧
    (EventLogger.emit (EventLogger.removeListener ⟨[], [l]⟩ l) e).1.eventBuffer = [e] := by
  refine ⟨?_, rfl, rfl, ?_⟩
  · cases buf <;> simp [EventLogger.onLog]
  · simp [EventLogger.removeListener, EventLogger.emit]

/-- Helper: emitting any event sequence through the overriding `emit` with no
listener registered leaves the buffer holding exactly the most recent 100
events (oldest first). -/
theorem emitAll_buffer : ∀ (es b : List LogEvent), b.length ≤ 100 →
    EventLogger.emitAll ⟨b, []⟩ es = ⟨(b ++ es).drop ((b ++ es).length - 100), []⟩ := by
  intro es
  induction es with
  | nil =>
    intro b hb
    have h0 : b.length - 100 = 0 := Nat.sub_eq_zero_of_le hb
    simp [EventLogger.emitAll, h0]
  | cons e es ih =>
    intro b hb
    show EventLogger.emitAll (EventLogger.emit ⟨b, []⟩ e).1 es = _
    by_cases h99 : b.length > 99
    · have hb100 : b.length = 100 := by omega
      cases b with
      | nil => simp at hb100
      | cons hd tl =>
        have htl : tl.length = 99 := by simpa using hb100
        have hemit : (EventLogger.emit ⟨hd :: tl, []⟩ e).1 = ⟨tl ++ [e], []⟩ := by
          simp [EventLogger.emit, htl]
        rw [hemit, ih (tl ++ [e]) (by simp [htl])]
        have hlen1 : ((tl ++ [e]) ++ es).length - 100 = es.length := by
          simp [htl]
          omega
        have hlen2 : ((hd :: tl) ++ e :: es).length - 100 = es.length + 1 := by
          simp [htl]
        rw [hlen1, hlen2]
        have hL : (tl ++ [e]) ++ es = tl ++ e :: es := by simp
        rw [hL]
        simp [List.cons_append, List.drop_succ_cons]
    · have hemit : (EventLogger.emit ⟨b, []⟩ e).1 = ⟨b ++ [e], []⟩ := by
        simp [EventLogger.emit, h99]
      rw [hemit, ih (b ++ [e]) (by simp; omega)]
      have hL : (b ++ [e]) ++ es = b ++ e :: es := by simp
      rw [hL]

/-- C2 (code/spec divergence, exhibited, together with the behaviour the
buffering machinery was built to provide):

The package emits its log events through `EventLogger.log`, which calls the
SAVED ORIGINAL `EventEmitter` emit (`this._emit`), bypassing the buffering
override installed in the constructor: with no subscriber registered, a
logged event is simply dropped — the internal buffer stays empty (first two
conjuncts) — although the overriding `emit` would have buffered it (third
conjunct), and the class documentation promises exactly that buffering.

The remaining conjuncts verify the override machinery itself, which behaves
as the claim describes whenever it is the emission path: for every emission
sequence with no subscriber the buffer holds exactly the most recent 100
events oldest-first (never more than 100, evicting the oldest when full);
after 150 emissions exactly events 50..149 remain; registering the first
subscriber replays exactly those buffered events in original order and
leaves the buffer empty; and a second, later subscriber receives no replay. -/
theorem fhda_C2_bug :
    (EventLogger.log EventLogger.init ⟨"Created new LDAP connection", none⟩).1.eventBuffer =
      [] ∧
    (EventLogger.log EventLogger.init ⟨"Created new LDAP connection", none⟩).2 = [] ∧
    (EventLogger.emit EventLogger.init ⟨"Created new LDAP connection", none⟩).1.eventBuffer =
      [⟨"Created new LDAP connection", none⟩] ∧
    (∀ es : List LogEvent,
      (EventLogger.emitAll EventLogger.init es).eventBuffer = es.drop (es.length - 100) ∧
      (EventLogger.emitAll EventLogger.init es).eventBuffer.length ≤ 100) ∧
    (EventLogger.emitAll EventLogger.init esW).eventBuffer = esW.drop 50 ∧
    (EventLogger.onLog (EventLogger.emitAll EventLogger.init esW) 0).2 =
      (esW.drop 50).map (fun e => (0, e)) ∧
    (EventLogger.onLog (EventLogger.emitAll EventLogger.init esW) 0).1.eventBuffer = [] ∧
    (EventLogger.onLog (EventLogger.onLog (EventLogger.emitAll EventLogger.init esW) 0).1
        1).2 = [] := by
  have hbuf : ∀ es : List LogEvent,
      EventLogger.emitAll EventLogger.init es = ⟨es.drop (es.length - 100), []⟩ := by
    intro es
    have h := emitAll_buffer es [] (by simp)
    simpa [EventLogger.init] using h
  have hlen : esW.length = 150 := by simp [esW]
  have hW : EventLogger.emitAll EventLogger.init esW = ⟨esW.drop 50, []⟩ := by
    rw [hbuf esW, hlen]
  have hdroplen : (esW.drop 50).length = 100 := by
    rw [List.length_drop, hlen]
  have honlog : EventLogger.onLog (EventLogger.emitAll EventLogger.init esW) 0 =
      (⟨[], [0]⟩, (esW.drop 50).map (fun e => (0, e))) := by
    rw [hW]
    simp [EventLogger.onLog, hdroplen]
  refine ⟨rfl, rfl, rfl, ?_, ?_, ?_, ?_, ?_⟩
  · intro es
    refine ⟨by rw [hbuf es], ?_⟩
    rw [hbuf es]
    simp only [List.length_drop]
    omega
  · rw [hW]
  · rw [honlog]
  · rw [honlog]
  · rw [honlog]
    rfl

/-- Helper: playing a script whose prefix contains only matched-entry events
and then an `end` event settles the search promise by resolving it with the
entries accumulated so far followed by the prefix entries, in emission
order. -/
theorem settled_playStream_end : ∀ (pre rest : List StreamEvent) (results : List Nat),
    pre.all (fun ev => !(isTerminalEvent ev)) = true →
    settledResult (playStream (pre ++ StreamEvent.endEv :: rest) results) =
      some (Except.ok (results ++ entriesOf pre)) := by
  intro pre
  induction pre with
  | nil =>
    intro rest results h
    simp [playStream, settledResult, entriesOf]
  | cons ev pre ih =>
    intro rest results h
    cases ev with
    | entry e =>
      have h2 : pre.all (fun ev => !(isTerminalEvent ev)) = true := by
        simpa [isTerminalEvent] using h
      simp only [List.cons_append, playStream, settledResult, List.append_eq]
      rw [ih rest (results ++ [e]) h2]
      simp [entriesOf]
    | errorEv err => simp [isTerminalEvent] at h
    | endEv => simp [isTerminalEvent] at h

/-- Helper: playing a script whose prefix contains only matched-entry events
and then an `error` event settles the search promise by rejecting it with
that error — the accumulated entries do not accompany the rejection. -/
theorem settled_playStream_error : ∀ (pre rest : List StreamEvent) (err : JsError)
    (results : List Nat),
    pre.all (fun ev => !(isTerminalEvent ev)) = true →
    settledResult (playStream (pre ++ StreamEvent.errorEv err :: rest) results) =
      some (Except.error err) := by
  intro pre
  induction pre with
  | nil =>
    intro rest err results h
    simp [playStream, settledResult]
  | cons ev pre ih =>
    intro rest err results h
    cases ev with
    | entry e =>
      have h2 : pre.all (fun ev => !(isTerminalEvent ev)) = true := by
        simpa [isTerminalEvent] using h
      simp only [List.cons_append, playStream, settledResult, List.append_eq]
      exact ih rest err (results ++ [e]) h2
    | errorEv e2 => simp [isTerminalEvent] at h
    | endEv => simp [isTerminalEvent] at h

/-- Helper: a script of matched-entry events contributes one collected value
per event. -/
theorem entriesOf_length : ∀ (pre : List StreamEvent),
    pre.all (fun ev => !(isTerminalEvent ev)) = true →
    (entriesOf pre).length = pre.length := by
  intro pre
  induction pre with
  | nil => intro h; rfl
  | cons ev pre ih =>
    intro h
    cases ev with
    | entry e =>
      have h2 : pre.all (fun ev => !(isTerminalEvent ev)) = true := by
        simpa [isTerminalEvent] using h
      have ihh := ih h2
      show (entriesOf (StreamEvent.entry e :: pre)).length = pre.length + 1
      have hcons : entriesOf (StreamEvent.entry e :: pre) = e :: entriesOf pre := rfl
      rw [hcons, List.length_cons, ihh]
    | errorEv err => simp [isTerminalEvent] at h
    | endEv => simp [isTerminalEvent] at h

/-- C4: a streaming search accumulates the matched entries in the order they
are emitted and resolves with exactly that ordered sequence when the stream
signals completion — so the resolved sequence's length equals the number of
matched-entry events emitted before completion — and if an error is signaled
before completion, the search rejects with that error and the rejection
carries no partial results. -/
theorem fhda_C4 (c : Client) (pre rest : List StreamEvent) (err : JsError)
    (h : pre.all (fun ev => !(isTerminalEvent ev)) = true) :
    settledResult (searchTrace (Except.ok c) (Except.ok ())
        (pre ++ StreamEvent.endEv :: rest)) = some (Except.ok (entriesOf pre)) ∧
    (entriesOf pre).length = pre.length ∧
    settledResult (searchTrace (Except.ok c) (Except.ok ())
        (pre ++ StreamEvent.errorEv err :: rest)) = some (Except.error err) := by
  refine ⟨?_, entriesOf_length pre h, ?_⟩
  · simp only [searchTrace, List.cons_append, List.nil_append, settledResult,
      List.append_eq]
    rw [settled_playStream_end pre rest [] h]
    simp
  · simp only [searchTrace, List.cons_append, List.nil_append, settledResult,
      List.append_eq]
    exact settled_playStream_error pre rest err [] h

/-- Witness for C4 at a concrete input: two matched entries then completion
resolve with `[1, 2]`; two matched entries then an error reject with that
error. -/
theorem fhda_C4_witness :
    ([StreamEvent.entry 1, StreamEvent.entry 2].all
        (fun ev => !(isTerminalEvent ev)) = true) ∧
    (settledResult (searchTrace (Except.ok 0) (Except.ok ())
        ([StreamEvent.entry 1, StreamEvent.entry 2] ++ StreamEvent.endEv :: [])) =
      some (Except.ok (entriesOf [StreamEvent.entry 1, StreamEvent.entry 2])) ∧
    (entriesOf [StreamEvent.entry 1, StreamEvent.entry 2]).length = 2 ∧
    settledResult (searchTrace (Except.ok 0) (Except.ok ())
        ([StreamEvent.entry 1, StreamEvent.entry 2] ++
          StreamEvent.errorEv (JsError.generic 0) :: [])) =
      some (Except.error (JsError.generic 0))) :=
  ⟨rfl,
    fhda_C4 0 [StreamEvent.entry 1, StreamEvent.entry 2] [] (JsError.generic 0) rfl⟩

/-- C5 counterexample: on a successful streaming search (client 0, one
matched entry, then completion) the trace is acquire, attach handlers,
RELEASE, stream events, settle — the connection is released as soon as the
handlers are attached, BEFORE the search result settles, so the claim that
the connection is released only after the result has settled is false. -/
theorem fhda_C5_counterexample :
    releasedOnlyAfterSettle
      (searchTrace (Except.ok 0) (Except.ok ())
        [StreamEvent.entry 7, StreamEvent.endEv]) = false := rfl

/-- Helper: trace events wrapping stream emissions are never releases. -/
theorem filter_release_map_stream (evs : List StreamEvent) :
    ((evs.map SearchTraceEvent.streamEvent).filter isReleaseEvent) = [] := by
  induction evs with
  | nil => rfl
  | cons ev evs ih => simp [List.filter_cons, isReleaseEvent, ih]

/-- Helper: playing the stream script emits no release event — the release
happened before the script plays. -/
theorem playStream_filter_release : ∀ (script : List StreamEvent) (results : List Nat),
    (playStream script results).filter isReleaseEvent = [] := by
  intro script
  induction script with
  | nil => intro results; rfl
  | cons ev rest ih =>
    intro results
    cases ev with
    | entry e => simp [playStream, List.filter_cons, isReleaseEvent, ih]
    | errorEv err =>
      simp [playStream, List.filter_cons, isReleaseEvent, filter_release_map_stream]
    | endEv =>
      simp [playStream, List.filter_cons, isReleaseEvent, filter_release_map_stream]

/-- C5 amended: whenever the acquisition succeeds the connection is released
exactly once and never leaked, but the release happens as soon as the stream
handlers are attached, not after the result settles: on the streaming path
the trace is acquire, attach handlers, release, and only then the stream
events and the settling of the result (the play-out contains no release);
only when the initial `searchAsync` call itself fails is the rejection
settled before the release. -/
theorem fhda_C5_amended (c : Client) (searchCall : Except JsError Unit)
    (script : List StreamEvent) :
    ((searchTrace (Except.ok c) searchCall script).filter isReleaseEvent) =
      [SearchTraceEvent.release c] ∧
    (searchCall = Except.ok () →
      searchTrace (Except.ok c) searchCall script =
        [SearchTraceEvent.acquire c, SearchTraceEvent.attachHandlers,
          SearchTraceEvent.release c] ++ playStream script [] ∧
      (playStream script []).filter isReleaseEvent = []) ∧
    (∀ e, searchCall = Except.error e →
      searchTrace (Except.ok c) searchCall script =
        [SearchTraceEvent.acquire c, SearchTraceEvent.settle (Except.error e),
          SearchTraceEvent.release c]) := by
  refine ⟨?_, ?_, ?_⟩
  · cases searchCall with
    | ok v =>
      simp [searchTrace, List.filter_append, List.filter_cons, isReleaseEvent,
        playStream_filter_release script []]
    | error e =>
      simp [searchTrace, List.filter_cons, isReleaseEvent]
  · intro h
    subst h
    exact ⟨rfl, playStream_filter_release script []⟩
  · intro e h
    subst h
    rfl

/-- Witness for the amended C5 at a concrete input: a successful search with
an immediately completing stream releases connection 0 right after the
handlers are attached, before the play-out. -/
theorem fhda_C5_witness :
    ((Except.ok () : Except JsError Unit) = Except.ok ()) ∧
    (searchTrace (Except.ok 0) (Except.ok ()) [StreamEvent.endEv] =
      [SearchTraceEvent.acquire 0, SearchTraceEvent.attachHandlers,
        SearchTraceEvent.release 0] ++ playStream [StreamEvent.endEv] [] ∧
    (playStream [StreamEvent.endEv] []).filter isReleaseEvent = []) :=
  ⟨rfl, (fhda_C5_amended 0 (Except.ok ()) [StreamEvent.endEv]).2.1 rfl⟩

end FhdaLdap
